import Mathlib

/-!
Verification of the algorithmic cores of the fxart repository.

The two subsystems with algorithmic content are embedded here:

* the edge-aware flood fill `floodFill` of `src/App.jsx` (lines 98-206):
  barrier construction against the background color, morphological
  dilation (`gapCloseRadius` iterations), carve-out of pixels close to
  the seed color, and the explicit-stack scanline fill;
* the curve rasterizer `drawFunction` of `src/components/Canvas.jsx`
  (lines 8-95): overscan geometry, sample-to-pixel mapping, the
  moveTo/lineTo segmentation loop, and the stroke style computation,
  together with `fitCanvas` (lines 132-148).

Conventions of the embedding:

* An RGBA sample is a `Pixel` of four integers.  Every index the
  JavaScript code computes into the flat `Uint8ClampedArray` is
  pixel-aligned (`idx(x,y) = (y*width+x)*4`, channels `i .. i+3`), so the
  buffer is embedded as a `List Pixel` addressed by the flat pixel index
  `y*width + x`.
* JavaScript reads out of the bounds of a typed array yield `undefined`;
  every arithmetic comparison against `undefined`/`NaN` is false.  This
  is embedded by `Option`-valued reads (`pixGet`), a mask read that is
  `false` out of bounds (`maskGet`), and pattern matches in which the
  `none` case yields `false`.  Writes out of bounds are silently
  discarded, as in `setPix`.
* The `while (stack.length)` loop of the fill is embedded with explicit
  fuel (`floodLoop`); `none` means the fuel was exhausted before the
  stack emptied.  The three bounded scans inside one iteration (left
  scan, right scan, span fill) are embedded by structural recursion on
  an iteration count that matches the loop bounds of the source.
-/

namespace FxArt

/-- One RGBA sample of the raster, `src/App.jsx` line 107. -/
structure Pixel where
  r : ℤ
  g : ℤ
  b : ℤ
  a : ℤ
  deriving DecidableEq, Repr

/-- Manhattan distance over R,G,B,A, as in the carve-out and
`closeEnough` computations of `src/App.jsx` lines 156-176. -/
def dist4 (c t : Pixel) : ℤ :=
  |c.r - t.r| + |c.g - t.g| + |c.b - t.b| + |c.a - t.a|

/-- Manhattan distance over R,G,B only, as in the barrier construction
of `src/App.jsx` lines 117-123 (the alpha channel is not compared
against the background). -/
def rgbDist (c bgc : Pixel) : ℤ :=
  |c.r - bgc.r| + |c.g - bgc.g| + |c.b - bgc.b|

/-- Read of the pixel buffer at a flat (possibly out-of-range) pixel
index; `none` embeds the `undefined` a JavaScript typed array yields. -/
def pixGet (d : List Pixel) (p : ℤ) : Option Pixel :=
  if 0 ≤ p then d[p.toNat]? else none

/-- Write of the pixel buffer at a flat pixel index; out-of-range writes
are discarded, as on a JavaScript typed array. -/
def setPix (d : List Pixel) (p : ℤ) (c : Pixel) : List Pixel :=
  if 0 ≤ p then d.set p.toNat c else d

/-- Read of a barrier mask at a flat (possibly out-of-range) pixel
index; out of range the JavaScript `Uint8Array` read gives `undefined`,
which is falsy. -/
def maskGet (m : List Bool) (p : ℤ) : Bool :=
  if 0 ≤ p then m.getD p.toNat false else false

/-- Barrier construction, `src/App.jsx` lines 112-123: a pixel is a
barrier when its R,G,B Manhattan distance from the background color
exceeds the fixed edge threshold 40. -/
def barrierMask (w h : ℕ) (data : List Pixel) (bg : Pixel) : List Bool :=
  (List.range (w * h)).map fun (p : ℕ) =>
    match data[p]? with
    | some c => decide (40 < rgbDist c bg)
    | none => false

/-- The eight neighbor offsets `(dy, dx)` of the dilation loop,
`src/App.jsx` lines 135-144. -/
def nbrOffsets : List (ℤ × ℤ) :=
  [(-1, -1), (-1, 0), (-1, 1), (0, -1), (0, 1), (1, -1), (1, 0), (1, 1)]

/-- One dilation pass, `src/App.jsx` lines 129-147: a pixel of the next
mask is set when it was set before or any of its 8 in-bounds neighbors
was set. -/
def dilateStep (w h : ℕ) (m : List Bool) : List Bool :=
  (List.range (w * h)).map fun (p : ℕ) =>
    maskGet m p ||
      nbrOffsets.any fun q =>
        let yy : ℤ := ((p / w : ℕ) : ℤ) + q.1
        let xx : ℤ := ((p % w : ℕ) : ℤ) + q.2
        decide (0 ≤ yy) && decide (yy < (h : ℤ)) && decide (0 ≤ xx) &&
          decide (xx < (w : ℤ)) && maskGet m (yy * (w : ℤ) + xx)

/-- `gapClose` dilation passes, `src/App.jsx` lines 126-151 (the guard
`gapClose > 0` of the source is equivalent to zero iterations leaving
the mask unchanged). -/
def dilateN (w h : ℕ) (m : List Bool) : ℕ → List Bool
  | 0 => m
  | n + 1 => dilateStep w h (dilateN w h m n)

/-- Barrier mask after dilation and carve-out, `src/App.jsx` lines
112-164: after `gapClose` dilation passes, any pixel whose RGBA
Manhattan distance from the seed color `target` is at most
`max tolerance 24` is unmarked.  When the seed read was out of bounds
(`target = none`) every comparison against `NaN` is false and nothing
is carved. -/
def carvedBarrier (w h : ℕ) (data : List Pixel) (target : Option Pixel)
    (tol : ℤ) (bg : Pixel) (gapClose : ℕ) : List Bool :=
  let dil := dilateN w h (barrierMask w h data bg) gapClose
  (List.range (w * h)).map fun (p : ℕ) =>
    maskGet dil p &&
      !(match target with
        | none => false
        | some t =>
          match data[p]? with
          | none => false
          | some c => decide (dist4 c t ≤ max tol 24))

/-- The similarity predicate of the scanline loop, `src/App.jsx` lines
169-177: a flat pixel index is close enough when it is not a barrier
and its RGBA Manhattan distance from `target` is at most `tolerance`.
Out-of-bounds data reads and an out-of-bounds seed color (`none`) make
the comparison false, as `NaN` comparisons do in the source. -/
def closeEnough (barrier : List Bool) (target : Option Pixel) (tol : ℤ)
    (d : List Pixel) (p : ℤ) : Bool :=
  if maskGet barrier p then false
  else
    match target with
    | none => false
    | some t =>
      match pixGet d p with
      | none => false
      | some c => decide (dist4 c t ≤ tol)

/-- Left scan of one scanline iteration for a nonnegative start column,
counting down from column `n`: `src/App.jsx` lines 183-185
(`while (lx >= 0 && closeEnough(idx(lx, cy))) lx--; lx++`).  The value
returned is the final `lx` after the increment. -/
def spanLeftNat (ce : ℤ → Bool) : ℕ → ℤ
  | 0 => if ce 0 then 0 else 1
  | n + 1 => if ce ((n : ℤ) + 1) then spanLeftNat ce n else (n : ℤ) + 2

/-- Left scan from an arbitrary start column `x`; for `x < 0` the loop
guard `lx >= 0` fails at once and the source returns `x + 1`. -/
def spanLeft (ce : ℤ → Bool) (x : ℤ) : ℤ :=
  if x < 0 then x + 1 else spanLeftNat ce x.toNat

/-- Right scan of one scanline iteration, `src/App.jsx` lines 186-188
(`while (rx < width && closeEnough(idx(rx, cy))) rx++`).  The iteration
count is the distance from the current column to `width`, which bounds
the number of loop steps; with that fuel the function equals the
source loop. -/
def spanRightNat (w : ℕ) (ce : ℤ → Bool) : ℕ → ℤ → ℤ
  | 0, rx => rx
  | n + 1, rx => if rx < (w : ℤ) ∧ ce rx = true then spanRightNat w ce n (rx + 1) else rx

/-- Right scan from start column `x`.  When `x ≥ w` the fuel
`(w - x).toNat` is zero and the guard `rx < width` fails at once, as in
the source. -/
def spanRight (w : ℕ) (ce : ℤ → Bool) (x : ℤ) : ℤ :=
  spanRightNat w ce ((w : ℤ) - x).toNat x

/-- Span fill of one scanline iteration, `src/App.jsx` lines 190-202:
for `xx` from `lx` to `rx - 1`, recolor `(xx, cy)` to the fill color,
then push `(xx, cy-1)` and `(xx, cy+1)` when in vertical range and
close enough under the buffer as already partially recolored.  The
iteration count is `(rx - lx).toNat`.  The stack is a cons list whose
head is the next element popped, matching `push`/`pop` at the array
end. -/
def fillSpanNat (w h : ℕ) (barrier : List Bool) (target : Option Pixel)
    (tol : ℤ) (fillC : Pixel) (cy : ℤ) :
    ℕ → ℤ → List Pixel → List (ℤ × ℤ) → List Pixel × List (ℤ × ℤ)
  | 0, _, d, s => (d, s)
  | n + 1, xx, d, s =>
    let d1 := setPix d (cy * (w : ℤ) + xx) fillC
    let s1 := if 0 < cy ∧ closeEnough barrier target tol d1 ((cy - 1) * (w : ℤ) + xx) = true
      then (xx, cy - 1) :: s else s
    let s2 := if cy < (h : ℤ) - 1 ∧ closeEnough barrier target tol d1 ((cy + 1) * (w : ℤ) + xx) = true
      then (xx, cy + 1) :: s1 else s1
    fillSpanNat w h barrier target tol fillC cy n (xx + 1) d1 s2

/-- The `while (stack.length)` loop of the fill, `src/App.jsx` lines
179-203, with explicit fuel: each step pops a point, scans its row left
and right, recolors the span and pushes vertical neighbors.  `none`
means the fuel ran out before the stack emptied. -/
def floodLoop (w h : ℕ) (barrier : List Bool) (target : Option Pixel)
    (tol : ℤ) (fillC : Pixel) :
    ℕ → List (ℤ × ℤ) → List Pixel → Option (List Pixel)
  | _, [], d => some d
  | 0, _ :: _, _ => none
  | fuel + 1, (cx, cy) :: rest, d =>
    let ce := fun t => closeEnough barrier target tol d (cy * (w : ℤ) + t)
    let lx := spanLeft ce cx
    let rx := spanRight w ce cx
    let res := fillSpanNat w h barrier target tol fillC cy (rx - lx).toNat lx d rest
    floodLoop w h barrier target tol fillC fuel res.2 res.1

/-- The edge-aware flood fill, `src/App.jsx` lines 98-206.  The buffer
`data` is the `width*height` pixel list read by `getImageData`; the
seed is `(x, y)`; `target` is the RGBA at the seed's flat index
(`undefined` out of bounds).  Early no-op exits: seed color already
equal to the fill color; seed still a barrier after carve-out.
Otherwise the scanline loop runs with the given fuel. -/
def floodFill (fuel w h : ℕ) (data : List Pixel) (x y : ℤ) (fillC : Pixel)
    (tol : ℤ) (gapClose : ℕ) (bg : Pixel) : Option (List Pixel) :=
  let startP : ℤ := y * (w : ℤ) + x
  let target := pixGet data startP
  if target = some fillC then some data
  else
    let barrier := carvedBarrier w h data target tol bg gapClose
    if maskGet barrier startP then some data
    else floodLoop w h barrier target tol fillC fuel [(x, y)] data

/-! ### Curve rasterizer, `src/components/Canvas.jsx`

`drawFunction` works over IEEE doubles; the geometric pipeline is
embedded over ℚ.  The two trigonometric samples `Math.cos(rad)` and
`Math.sin(rad)` of line 39-40 are taken as inputs `c` and `s`, since
only the arithmetic the source performs on them is relevant to the
claims. -/

/-- Rotated bounding width `|W·cosθ| + |H·sinθ|`, `Canvas.jsx` line 40. -/
def rotatedWidth (w h c s : ℚ) : ℚ := |w * c| + |h * s|

/-- Overscan margin, `Canvas.jsx` line 41. -/
def overscanPx (w h c s : ℚ) : ℚ := max 0 ((rotatedWidth w h c s - w) / 2)

/-- Extended horizontal scale, `Canvas.jsx` line 44. -/
def pxPerXExt (w h c s xMin xMax : ℚ) : ℚ :=
  (w + 2 * overscanPx w h c s) / (xMax - xMin)

/-- Vertical scale `height/(yMax-yMin)`, `Canvas.jsx` line 28. -/
def pxPerY (h yMin yMax : ℚ) : ℚ := h / (yMax - yMin)

/-- Horizontal pixel coordinate of a sample, `Canvas.jsx` line 78. -/
def pxCoord (w h c s xMin xMax x : ℚ) : ℚ :=
  (x - xMin) * pxPerXExt w h c s xMin xMax - overscanPx w h c s

/-- Vertical pixel coordinate of a sample, `Canvas.jsx` line 79. -/
def pyCoord (h yMin yMax y : ℚ) : ℚ := h - (y - yMin) * pxPerY h yMin yMax

/-- Mathematical sample abscissa, `Canvas.jsx` lines 61-62:
`x = xMin + (i/steps)*(xMax-xMin)`.  The overscan does not occur in it:
the sampled mathematical domain is independent of the rotation. -/
def sampleX (xMin xMax : ℚ) (i steps : ℕ) : ℚ :=
  xMin + ((i : ℚ) / (steps : ℚ)) * (xMax - xMin)

/-- Step count, `Canvas.jsx` lines 57-58:
`steps = Math.max(300, Math.floor(width + 2*overscanPx))`. -/
def stepsFor (w h c s : ℚ) : ℤ := max 300 ⌊w + 2 * overscanPx w h c s⌋

/-- Effective stroke opacity, `Canvas.jsx` line 88:
`Math.min(1, Math.max(0, lineOpacity || 1))`.  A zero opacity is falsy
in JavaScript, so it is replaced by the default 1 before clamping. -/
def effectiveOpacity (o : ℚ) : ℚ := min 1 (max 0 (if o = 0 then 1 else o))

/-- Effective stroke width, `Canvas.jsx` line 89:
`Math.max(0.5, Number(lineWidth || 2))`. -/
def effectiveLineWidth (wd : ℚ) : ℚ := max (1 / 2) (if wd = 0 then 2 else wd)

/-- The moveTo/lineTo segmentation loop of `drawFunction`, `Canvas.jsx`
lines 59-86, abstracted over the per-sample outcome: entry `true` is a
sample whose evaluation produced a finite number, `false` one that
threw or was non-finite.  The Boolean argument is the `first` flag of
line 59 (`true` initially, reset to `true` by every failed sample); the
result counts the `moveTo` calls. -/
def segmentStarts : List Bool → Bool → ℕ
  | [], _ => 0
  | ok :: rest, first =>
    if ok then (if first then 1 else 0) + segmentStarts rest false
    else segmentStarts rest true

/-- Number of moveTo-starts (new polyline segments) over the sample
outcomes of one render. -/
def moveToStarts (outcomes : List Bool) : ℕ := segmentStarts outcomes true

/-- `true` when no two adjacent samples both failed (helper predicate
for stating when the spec's count formula is exact). -/
def noFF : List Bool → Bool
  | [] => true
  | [_] => true
  | a :: b :: rest => (a || b) && noFF (b :: rest)

/-- Last entry of a sample outcome list (`true` for the empty list). -/
def lastOk : List Bool → Bool
  | [] => true
  | [b] => b
  | _ :: b :: rest => lastOk (b :: rest)

/-! ### Raster surface manager, `src/components/Canvas.jsx` `fitCanvas` -/

/-- Effective device pixel ratio, `Canvas.jsx` line 136:
`Math.max(1, window.devicePixelRatio || 1)`. -/
def effDpr (d : ℚ) : ℚ := max 1 (if d = 0 then 1 else d)

/-- Pixel buffer dimension computed by `fitCanvas`, `Canvas.jsx` lines
143-144: `Math.floor(css * dpr)` applied to each logical dimension. -/
def fitDim (css d : ℚ) : ℤ := ⌊css * effDpr d⌋

/-! ### Spec-side definitions, for refinement comparisons.

These follow the wording of the specification (`spec.md`), to be
compared with the definitions translated from the source. -/

/-- Spec side, section 3 invariants: pixel buffer dimensions equal
`ceil(logical * dpr)`. -/
def specBufDim (css d : ℚ) : ℤ := ⌈css * effDpr d⌉

/-- Spec side, section 4.2 step 2: `overscan = max(0, (W' - width)/2)`
with `W' = |width·cosθ| + |height·sinθ|`. -/
def overscanSpec (w h c s : ℚ) : ℚ := max 0 ((|w * c| + |h * s| - w) / 2)

/-- Spec side, section 4.2 step 5:
`px = (x-xMin)*pxPerXExt - overscan` with
`pxPerXExt = (width + 2·overscan)/(xMax-xMin)`. -/
def pxCoordSpec (w h c s xMin xMax x : ℚ) : ℚ :=
  (x - xMin) * ((w + 2 * overscanSpec w h c s) / (xMax - xMin)) -
    overscanSpec w h c s

/-- Spec side, section 4.2 step 5: `py = height - (y-yMin)*pxPerY`. -/
def pyCoordSpec (h yMin yMax y : ℚ) : ℚ := h - (y - yMin) * (h / (yMax - yMin))

/-- Spec side, section 4.2 step 7: opacity clamped to `[0,1]`. -/
def clampedOpacitySpec (o : ℚ) : ℚ := min 1 (max 0 o)

/-! ### Basic lemmas about buffer and mask access -/

theorem maskGet_mapRange (n : ℕ) (f : ℕ → Bool) (p : ℤ) :
    maskGet ((List.range n).map f) p =
      if 0 ≤ p ∧ p.toNat < n then f p.toNat else false := by
  unfold maskGet
  by_cases h0 : 0 ≤ p
  · rw [if_pos h0, List.getD_eq_getElem?_getD, List.getElem?_map]
    by_cases hn : p.toNat < n
    · rw [List.getElem?_range hn, if_pos ⟨h0, hn⟩]
      rfl
    · rw [List.getElem?_eq_none (by simpa using hn), if_neg (by tauto)]
      rfl
  · rw [if_neg h0, if_neg (by tauto)]

theorem maskGet_eq_true_bounds {m : List Bool} {p : ℤ} (hp : maskGet m p = true) :
    0 ≤ p ∧ p.toNat < m.length := by
  unfold maskGet at hp
  by_cases h0 : 0 ≤ p
  · rw [if_pos h0] at hp
    refine ⟨h0, ?_⟩
    by_contra hlt
    rw [List.getD_eq_getElem?_getD, List.getElem?_eq_none (by omega)] at hp
    simp at hp
  · rw [if_neg h0] at hp
    simp at hp

theorem maskGet_oob {m : List Bool} {p : ℤ}
    (h : p < 0 ∨ (m.length : ℤ) ≤ p) : maskGet m p = false := by
  unfold maskGet
  rcases h with h | h
  · rw [if_neg (by omega)]
  · by_cases h0 : 0 ≤ p
    · rw [if_pos h0, List.getD_eq_getElem?_getD, List.getElem?_eq_none (by omega)]
      rfl
    · rw [if_neg h0]

theorem pixGet_bounds {d : List Pixel} {p : ℤ} {c : Pixel}
    (h : pixGet d p = some c) : 0 ≤ p ∧ p.toNat < d.length := by
  unfold pixGet at h
  by_cases h0 : 0 ≤ p
  · rw [if_pos h0] at h
    refine ⟨h0, ?_⟩
    by_contra hlt
    rw [List.getElem?_eq_none (by omega)] at h
    simp at h
  · rw [if_neg h0] at h
    simp at h

theorem pixGet_oob {d : List Pixel} {p : ℤ}
    (h : p < 0 ∨ (d.length : ℤ) ≤ p) : pixGet d p = none := by
  unfold pixGet
  rcases h with h | h
  · rw [if_neg (by omega)]
  · by_cases h0 : 0 ≤ p
    · rw [if_pos h0, List.getElem?_eq_none (by omega)]
    · rw [if_neg h0]

theorem pixGet_eq_some_get {d : List Pixel} {p : ℤ} (h0 : 0 ≤ p)
    (hl : p.toNat < d.length) : pixGet d p = some (d.get ⟨p.toNat, hl⟩) := by
  unfold pixGet
  rw [if_pos h0, List.getElem?_eq_getElem hl]
  rfl

theorem setPix_length (d : List Pixel) (p : ℤ) (c : Pixel) :
    (setPix d p c).length = d.length := by
  unfold setPix
  split <;> simp

theorem pixGet_setPix_self {d : List Pixel} {p : ℤ} (c : Pixel) (h0 : 0 ≤ p)
    (hl : p.toNat < d.length) : pixGet (setPix d p c) p = some c := by
  unfold pixGet setPix
  rw [if_pos h0, if_pos h0, List.getElem?_set_self hl]

theorem pixGet_setPix_fill {d : List Pixel} {q : ℤ} {c : Pixel} (p : ℤ)
    (hq : pixGet d q = some c) : pixGet (setPix d p c) q = some c := by
  obtain ⟨hq0, hql⟩ := pixGet_bounds hq
  by_cases h0 : 0 ≤ p
  · by_cases hpq : p.toNat = q.toNat
    · have hpq2 : p = q := by omega
      subst hpq2
      exact pixGet_setPix_self c hq0 hql
    · unfold pixGet setPix
      unfold pixGet at hq
      rw [if_pos hq0] at hq
      rw [if_pos h0, if_pos hq0, List.getElem?_set_ne hpq]
      exact hq
  · unfold setPix
    rw [if_neg h0]
    exact hq

theorem dist4_self (c : Pixel) : dist4 c c = 0 := by
  simp [dist4]

/-! ### Lemmas about `closeEnough` -/

/-- When the seed read was out of bounds (`target = undefined` in the
source) every `NaN` comparison is false, so no pixel is close enough. -/
theorem closeEnough_none (b : List Bool) (tol : ℤ) (d : List Pixel) (p : ℤ) :
    closeEnough b none tol d p = false := by
  unfold closeEnough
  split <;> rfl

/-! ### Lemmas about the barrier pipeline -/

theorem barrierMask_length (w h : ℕ) (data : List Pixel) (bg : Pixel) :
    (barrierMask w h data bg).length = w * h := by
  simp [barrierMask]

theorem dilateStep_length (w h : ℕ) (m : List Bool) :
    (dilateStep w h m).length = w * h := by
  simp [dilateStep]

theorem dilateN_length (w h : ℕ) (m : List Bool) (hm : m.length = w * h) :
    ∀ r, (dilateN w h m r).length = w * h
  | 0 => hm
  | r + 1 => dilateStep_length w h (dilateN w h m r)

theorem carvedBarrier_length (w h : ℕ) (data : List Pixel)
    (target : Option Pixel) (tol : ℤ) (bg : Pixel) (gapClose : ℕ) :
    (carvedBarrier w h data target tol bg gapClose).length = w * h := by
  simp [carvedBarrier]

/-- One dilation pass is extensive: a pixel of the mask stays set. -/
theorem maskGet_dilateStep_of_true {w h : ℕ} {m : List Bool} {p : ℤ}
    (hm : m.length = w * h) (hp : maskGet m p = true) :
    maskGet (dilateStep w h m) p = true := by
  obtain ⟨h0, hl⟩ := maskGet_eq_true_bounds hp
  rw [hm] at hl
  unfold dilateStep
  rw [maskGet_mapRange, if_pos ⟨h0, hl⟩]
  have hcast : ((p.toNat : ℕ) : ℤ) = p := by omega
  rw [hcast, hp]
  rfl

/-! ### Lemmas about the scanline primitives -/

theorem spanLeftNat_le (ce : ℤ → Bool) : ∀ n : ℕ, spanLeftNat ce n ≤ (n : ℤ) + 1
  | 0 => by
    unfold spanLeftNat
    split <;> omega
  | n + 1 => by
    unfold spanLeftNat
    split
    · have := spanLeftNat_le ce n
      push_cast
      omega
    · push_cast
      omega

theorem spanLeft_le_self {ce : ℤ → Bool} {x : ℤ} (h0 : 0 ≤ x)
    (hce : ce x = true) : spanLeft ce x ≤ x := by
  unfold spanLeft
  rw [if_neg (by omega)]
  cases hn : x.toNat with
  | zero =>
    have hx : x = 0 := by omega
    subst hx
    unfold spanLeftNat
    rw [hce]
    simp
  | succ m =>
    have hx : ((m : ℤ) + 1) = x := by omega
    unfold spanLeftNat
    rw [hx, hce]
    simp only [if_true]
    calc spanLeftNat ce m ≤ (m : ℤ) + 1 := spanLeftNat_le ce m
    _ = x := hx

theorem spanLeft_of_false (ce : ℤ → Bool) (x : ℤ) (h0 : 0 ≤ x)
    (hce : ce x = false) : spanLeft ce x = x + 1 := by
  unfold spanLeft
  rw [if_neg (by omega)]
  cases hn : x.toNat with
  | zero =>
    have hx : x = 0 := by omega
    subst hx
    unfold spanLeftNat
    rw [hce]
    simp
  | succ m =>
    have hx : ((m : ℤ) + 1) = x := by omega
    unfold spanLeftNat
    rw [hx, hce]
    simp only [Bool.false_eq_true, if_false]
    omega

theorem spanRightNat_ge (w : ℕ) (ce : ℤ → Bool) :
    ∀ (n : ℕ) (rx : ℤ), rx ≤ spanRightNat w ce n rx
  | 0, rx => le_refl rx
  | n + 1, rx => by
    unfold spanRightNat
    split
    · have := spanRightNat_ge w ce n (rx + 1)
      omega
    · exact le_refl rx

theorem spanRight_ge_succ {w : ℕ} {ce : ℤ → Bool} {x : ℤ}
    (hce : ce x = true) (hxw : x < (w : ℤ)) : x + 1 ≤ spanRight w ce x := by
  unfold spanRight
  obtain ⟨n, hn⟩ : ∃ n, ((w : ℤ) - x).toNat = n + 1 :=
    ⟨((w : ℤ) - x).toNat - 1, by omega⟩
  rw [hn]
  unfold spanRightNat
  rw [if_pos ⟨hxw, hce⟩]
  exact spanRightNat_ge w ce n (x + 1)

theorem spanRight_of_false (w : ℕ) (ce : ℤ → Bool) (x : ℤ)
    (hce : ce x = false) : spanRight w ce x = x := by
  unfold spanRight
  cases hn : ((w : ℤ) - x).toNat with
  | zero => rfl
  | succ n =>
    unfold spanRightNat
    rw [if_neg (by simp [hce])]

/-! ### Lemmas about the span fill and the fill loop -/

/-- Every write of the span fill writes the fill color, so a pixel that
already holds the fill color still holds it afterwards. -/
theorem fillSpanNat_fst_fill (w h : ℕ) (barrier : List Bool)
    (target : Option Pixel) (tol : ℤ) (fillC : Pixel) (cy : ℤ) (q : ℤ) :
    ∀ (n : ℕ) (xx : ℤ) (d : List Pixel) (s : List (ℤ × ℤ)),
      pixGet d q = some fillC →
      pixGet (fillSpanNat w h barrier target tol fillC cy n xx d s).1 q = some fillC
  | 0, _, _, _, hq => hq
  | n + 1, xx, d, s, hq => by
    unfold fillSpanNat
    exact fillSpanNat_fst_fill w h barrier target tol fillC cy q n (xx + 1) _ _
      (pixGet_setPix_fill _ hq)

theorem fillSpanNat_fst_length (w h : ℕ) (barrier : List Bool)
    (target : Option Pixel) (tol : ℤ) (fillC : Pixel) (cy : ℤ) :
    ∀ (n : ℕ) (xx : ℤ) (d : List Pixel) (s : List (ℤ × ℤ)),
      (fillSpanNat w h barrier target tol fillC cy n xx d s).1.length = d.length
  | 0, _, _, _ => rfl
  | n + 1, xx, d, s => by
    unfold fillSpanNat
    rw [fillSpanNat_fst_length w h barrier target tol fillC cy n (xx + 1) _ _]
    exact setPix_length d _ fillC

/-- The span fill recolors every in-range column it iterates over. -/
theorem fillSpanNat_writes (w h : ℕ) (barrier : List Bool)
    (target : Option Pixel) (tol : ℤ) (fillC : Pixel) (cy : ℤ) (xq : ℤ) :
    ∀ (n : ℕ) (xx : ℤ) (d : List Pixel) (s : List (ℤ × ℤ)),
      xx ≤ xq → xq < xx + (n : ℤ) →
      0 ≤ cy * (w : ℤ) + xq → (cy * (w : ℤ) + xq).toNat < d.length →
      pixGet (fillSpanNat w h barrier target tol fillC cy n xx d s).1
        (cy * (w : ℤ) + xq) = some fillC
  | 0, xx, d, s, hle, hlt, _, _ => by omega
  | n + 1, xx, d, s, hle, hlt, h0, hl => by
    unfold fillSpanNat
    by_cases hq : xq = xx
    · subst hq
      exact fillSpanNat_fst_fill w h barrier target tol fillC cy _ n (xq + 1) _ _
        (pixGet_setPix_self fillC h0 hl)
    · refine fillSpanNat_writes w h barrier target tol fillC cy xq n (xx + 1) _ _
        (by omega) (by push_cast at hlt; omega) h0 ?_
      rw [setPix_length]
      exact hl

/-- Every write of the fill loop writes the fill color. -/
theorem floodLoop_preserves_fill (w h : ℕ) (barrier : List Bool)
    (target : Option Pixel) (tol : ℤ) (fillC : Pixel) (q : ℤ) :
    ∀ (fuel : ℕ) (s : List (ℤ × ℤ)) (d d' : List Pixel),
      floodLoop w h barrier target tol fillC fuel s d = some d' →
      pixGet d q = some fillC → pixGet d' q = some fillC := by
  intro fuel
  induction fuel with
  | zero =>
    intro s d d' hl hq
    cases s with
    | nil =>
      simp only [floodLoop, Option.some.injEq] at hl
      rw [← hl]
      exact hq
    | cons a s => simp [floodLoop] at hl
  | succ f ih =>
    intro s d d' hl hq
    cases s with
    | nil =>
      simp only [floodLoop, Option.some.injEq] at hl
      rw [← hl]
      exact hq
    | cons a rest =>
      obtain ⟨cx, cy⟩ := a
      simp only [floodLoop] at hl
      exact ih _ _ _ hl
        (fillSpanNat_fst_fill w h barrier target tol fillC cy q _ _ d rest hq)

/-! ### Claim C9: gap-closing monotonicity -/

/-- C9: increasing `gapCloseRadius` from `r` to `r+1` can only shrink or
preserve the set of non-barrier pixels of the dilated barrier mask
(before carve-out): every pixel marked barrier after `r` dilation
iterations is also marked barrier after `r+1` iterations, for every
pixel buffer and background color. -/
theorem dilation_monotone_in_radius (w h : ℕ) (data : List Pixel) (bg : Pixel)
    (r : ℕ) (p : ℤ)
    (hp : maskGet (dilateN w h (barrierMask w h data bg) r) p = true) :
    maskGet (dilateN w h (barrierMask w h data bg) (r + 1)) p = true :=
  maskGet_dilateStep_of_true
    (dilateN_length w h _ (barrierMask_length w h data bg) r) hp

/-- Witness for `dilation_monotone_in_radius`: a 1×1 buffer holding a
black pixel over a white background is a barrier pixel at radius 0, and
stays one at radius 1. -/
theorem dilation_monotone_in_radius_witness :
    maskGet (dilateN 1 1 (barrierMask 1 1 [⟨0, 0, 0, 255⟩] ⟨255, 255, 255, 255⟩) 0) 0 = true ∧
    maskGet (dilateN 1 1 (barrierMask 1 1 [⟨0, 0, 0, 255⟩] ⟨255, 255, 255, 255⟩) (0 + 1)) 0 = true :=
  ⟨by decide,
    dilation_monotone_in_radius 1 1 [⟨0, 0, 0, 255⟩] ⟨255, 255, 255, 255⟩ 0 0 (by decide)⟩

/-! ### Claim C1: seed on a barrier pixel -/

/-- C1 counterexample: a 1×1 buffer whose only pixel is black over a
white background.  The seed lies on a barrier pixel (RGB distance 765 >
40 from the background) and the fill uses tolerance 24, yet `floodFill`
mutates the buffer: the carve-out has already unmarked the seed (its
distance from the seed color is 0 ≤ max(24,24)), so the fill proceeds
and recolors the pixel — the claimed no-op does not happen. -/
theorem barrier_seed_fill_mutates :
    40 < rgbDist ⟨0, 0, 0, 255⟩ ⟨255, 255, 255, 255⟩ ∧
    floodFill 2 1 1 [⟨0, 0, 0, 255⟩] 0 0 ⟨255, 0, 0, 255⟩ 24 1 ⟨255, 255, 255, 255⟩ =
      some [⟨255, 0, 0, 255⟩] ∧
    floodFill 2 1 1 [⟨0, 0, 0, 255⟩] 0 0 ⟨255, 0, 0, 255⟩ 24 1 ⟨255, 255, 255, 255⟩ ≠
      some [⟨0, 0, 0, 255⟩] :=
  ⟨by decide, by decide, by decide⟩

/-- C1 amended: the carve-out pass always unmarks an in-bounds seed
pixel itself (its RGBA distance from the recorded target is 0, which is
at most `max tolerance 24`), so the "seed still barrier after
carve-out" abort of `floodFill` never fires for an in-bounds seed; a
fill seeded on a barrier pixel therefore proceeds rather than
performing no mutation. -/
theorem carve_clears_seed (w h : ℕ) (data : List Pixel) (x y tol : ℤ)
    (bg : Pixel) (gapClose : ℕ)
    (hx0 : 0 ≤ x) (hxw : x < (w : ℤ)) (hy0 : 0 ≤ y) (hyh : y < (h : ℤ))
    (hlen : data.length = w * h) :
    maskGet (carvedBarrier w h data (pixGet data (y * (w : ℤ) + x)) tol bg gapClose)
      (y * (w : ℤ) + x) = false := by
  have hwh : ((w * h : ℕ) : ℤ) = (w : ℤ) * (h : ℤ) := by push_cast; ring
  have h0 : 0 ≤ y * (w : ℤ) + x :=
    add_nonneg (mul_nonneg hy0 (Int.ofNat_nonneg w)) hx0
  have hlt : y * (w : ℤ) + x < (w : ℤ) * (h : ℤ) := by nlinarith
  have hlt2 : (y * (w : ℤ) + x).toNat < w * h := by omega
  have hltd : (y * (w : ℤ) + x).toNat < data.length := by omega
  rw [pixGet_eq_some_get h0 hltd]
  unfold carvedBarrier
  rw [maskGet_mapRange, if_pos ⟨h0, hlt2⟩]
  rw [show data[(y * (w : ℤ) + x).toNat]? =
      some (data.get ⟨(y * (w : ℤ) + x).toNat, hltd⟩) from
    List.getElem?_eq_getElem hltd]
  have hmax : (0 : ℤ) ≤ max tol 24 := le_trans (by norm_num) (le_max_right tol 24)
  simp [dist4_self, hmax]

/-- Witness for `carve_clears_seed` at a concrete barrier seed. -/
theorem carve_clears_seed_witness :
    maskGet (carvedBarrier 1 1 [⟨0, 0, 0, 255⟩]
        (pixGet [⟨0, 0, 0, 255⟩] (0 * (1 : ℤ) + 0)) 24 ⟨255, 255, 255, 255⟩ 1)
      (0 * (1 : ℤ) + 0) = false :=
  carve_clears_seed 1 1 [⟨0, 0, 0, 255⟩] 0 0 24 ⟨255, 255, 255, 255⟩ 1
    (by decide) (by decide) (by decide) (by decide) (by decide)

/-! ### Claim C2: no re-visit of recolored pixels -/

/-- C2 counterexample: with a fill color different from the target but
within tolerance of it, a recolored pixel still satisfies `closeEnough`
against the recorded target, and on a 1×2 all-target buffer the
scanline loop keeps re-visiting the two rows: 50 units of fuel are
exhausted without the stack emptying. -/
theorem recolored_still_closeEnough :
    (⟨10, 0, 0, 255⟩ : Pixel) ≠ ⟨0, 0, 0, 255⟩ ∧
    closeEnough [false, false] (some ⟨0, 0, 0, 255⟩) 24
      [⟨10, 0, 0, 255⟩, ⟨0, 0, 0, 255⟩] 0 = true ∧
    floodFill 50 1 2 [⟨0, 0, 0, 255⟩, ⟨0, 0, 0, 255⟩] 0 0 ⟨10, 0, 0, 255⟩ 24 0
      ⟨0, 0, 0, 255⟩ = none :=
  ⟨by decide, by decide, by decide⟩

/-- C2 amended: once a pixel is recolored to the fill color it no
longer satisfies `closeEnough` against the recorded target color
*provided* the RGBA Manhattan distance from the fill color to the
target exceeds the tolerance; mere inequality of the two colors (all
the step-1 early exit guarantees) is not sufficient. -/
theorem recolored_not_closeEnough (b : List Bool) (tgt fillC : Pixel)
    (tol : ℤ) (d : List Pixel) (p : ℤ) (hdist : tol < dist4 fillC tgt)
    (hp : pixGet d p = some fillC) :
    closeEnough b (some tgt) tol d p = false := by
  unfold closeEnough
  split
  · rfl
  · rw [hp]
    exact decide_eq_false (by omega)

/-- Witness for `recolored_not_closeEnough`: a pixel recolored to white
with black target and tolerance 24. -/
theorem recolored_not_closeEnough_witness :
    (24 : ℤ) < dist4 ⟨255, 255, 255, 255⟩ ⟨0, 0, 0, 255⟩ ∧
    closeEnough [false] (some ⟨0, 0, 0, 255⟩) 24 [⟨255, 255, 255, 255⟩] 0 = false :=
  ⟨by decide,
    recolored_not_closeEnough [false] ⟨0, 0, 0, 255⟩ ⟨255, 255, 255, 255⟩ 24
      [⟨255, 255, 255, 255⟩] 0 (by decide) (by decide)⟩

/-! ### Claim C8: flood fill idempotence -/

/-- C8: applying `floodFill` twice with identical arguments (in-bounds
seed) changes the buffer only on the first application: whenever the
first application returns a buffer, applying the fill again to that
buffer returns it unchanged.  Either the first run recolored the seed
pixel to the fill color — then the second run hits the "seed color
already equals fill color" early exit — or the first run changed
nothing, and the second run repeats the same no-op computation. -/
theorem floodFill_idempotent (fuel w h : ℕ) (data buf2 : List Pixel)
    (x y : ℤ) (fillC : Pixel) (tol : ℤ) (gap : ℕ) (bg : Pixel)
    (hx0 : 0 ≤ x) (hxw : x < (w : ℤ)) (hy0 : 0 ≤ y) (hyh : y < (h : ℤ))
    (hlen : data.length = w * h)
    (h1 : floodFill fuel w h data x y fillC tol gap bg = some buf2) :
    floodFill fuel w h buf2 x y fillC tol gap bg = some buf2 := by
  have hwh : ((w * h : ℕ) : ℤ) = (w : ℤ) * (h : ℤ) := by push_cast; ring
  have h0 : 0 ≤ y * (w : ℤ) + x :=
    add_nonneg (mul_nonneg hy0 (Int.ofNat_nonneg w)) hx0
  have hlt : y * (w : ℤ) + x < (w : ℤ) * (h : ℤ) := by nlinarith
  have hltd : (y * (w : ℤ) + x).toNat < data.length := by omega
  have htgt : pixGet data (y * (w : ℤ) + x) =
      some (data.get ⟨(y * (w : ℤ) + x).toNat, hltd⟩) :=
    pixGet_eq_some_get h0 hltd
  have key : buf2 = data ∨ pixGet buf2 (y * (w : ℤ) + x) = some fillC := by
    rw [floodFill] at h1
    simp only [] at h1
    split at h1
    · left
      exact (Option.some.inj h1).symm
    · next hne =>
      split at h1
      · left
        exact (Option.some.inj h1).symm
      · next hab =>
        have hab2 : maskGet (carvedBarrier w h data (pixGet data (y * (w : ℤ) + x))
            tol bg gap) (y * (w : ℤ) + x) = false := by
          simpa using hab
        by_cases htol : 0 ≤ tol
        · right
          have hce : closeEnough
              (carvedBarrier w h data (pixGet data (y * (w : ℤ) + x)) tol bg gap)
              (pixGet data (y * (w : ℤ) + x)) tol data (y * (w : ℤ) + x) = true := by
            unfold closeEnough
            rw [hab2]
            simp only [Bool.false_eq_true, if_false]
            rw [htgt]
            simp [dist4_self, htol]
          cases fuel with
          | zero => simp [floodLoop] at h1
          | succ f =>
            simp only [floodLoop] at h1
            have hlx : spanLeft (fun t => closeEnough
                (carvedBarrier w h data (pixGet data (y * (w : ℤ) + x)) tol bg gap)
                (pixGet data (y * (w : ℤ) + x)) tol data (y * (w : ℤ) + t)) x ≤ x :=
              spanLeft_le_self hx0 hce
            have hrx : x + 1 ≤ spanRight w (fun t => closeEnough
                (carvedBarrier w h data (pixGet data (y * (w : ℤ) + x)) tol bg gap)
                (pixGet data (y * (w : ℤ) + x)) tol data (y * (w : ℤ) + t)) x :=
              spanRight_ge_succ hce hxw
            refine floodLoop_preserves_fill w h _ _ tol fillC (y * (w : ℤ) + x)
              f _ _ buf2 h1 ?_
            refine fillSpanNat_writes w h _ _ tol fillC y x _ _ data [] hlx ?_ h0 hltd
            omega
        · left
          have hcef : closeEnough
              (carvedBarrier w h data (pixGet data (y * (w : ℤ) + x)) tol bg gap)
              (pixGet data (y * (w : ℤ) + x)) tol data (y * (w : ℤ) + x) = false := by
            unfold closeEnough
            split
            · rfl
            · rw [htgt]
              simp [dist4_self, htol]
          cases fuel with
          | zero => simp [floodLoop] at h1
          | succ f =>
            simp only [floodLoop] at h1
            rw [spanLeft_of_false (fun t => closeEnough
                (carvedBarrier w h data (pixGet data (y * (w : ℤ) + x)) tol bg gap)
                (pixGet data (y * (w : ℤ) + x)) tol data (y * (w : ℤ) + t)) x hx0 hcef,
              spanRight_of_false w (fun t => closeEnough
                (carvedBarrier w h data (pixGet data (y * (w : ℤ) + x)) tol bg gap)
                (pixGet data (y * (w : ℤ) + x)) tol data (y * (w : ℤ) + t)) x hcef] at h1
            rw [show (x - (x + 1)).toNat = 0 from by omega] at h1
            simp only [fillSpanNat, floodLoop] at h1
            exact (Option.some.inj h1).symm
  rcases key with hk | hk
  · subst hk
    exact h1
  · rw [floodFill]
    simp only []
    rw [if_pos hk]

/-- Witness for `floodFill_idempotent`: on a 1×1 black buffer the first
red fill recolors the pixel, the second is a no-op. -/
theorem floodFill_idempotent_witness :
    floodFill 2 1 1 [⟨0, 0, 0, 255⟩] 0 0 ⟨255, 0, 0, 255⟩ 24 1 ⟨255, 255, 255, 255⟩ =
      some [⟨255, 0, 0, 255⟩] ∧
    floodFill 2 1 1 [⟨255, 0, 0, 255⟩] 0 0 ⟨255, 0, 0, 255⟩ 24 1 ⟨255, 255, 255, 255⟩ =
      some [⟨255, 0, 0, 255⟩] :=
  ⟨by decide,
    floodFill_idempotent 2 1 1 [⟨0, 0, 0, 255⟩] [⟨255, 0, 0, 255⟩] 0 0
      ⟨255, 0, 0, 255⟩ 24 1 ⟨255, 255, 255, 255⟩ (by decide) (by decide)
      (by decide) (by decide) (by decide) (by decide)⟩

/-! ### Claim C10: out-of-bounds seed -/

/-- C10 counterexample: on a 2×2 all-black buffer over a black
background, the seed `(2, 0)` is out of bounds (x ≥ width), yet its
flat index `0·2+2 = 2` lands inside the array and aliases pixel
`(0, 1)`: the target read succeeds, the left scan walks across the row
boundary, and `floodFill` recolors the entire buffer instead of
leaving it unchanged. -/
theorem oob_seed_mutates :
    ¬ ((2 : ℤ) < 2) ∧
    floodFill 5 2 2 [⟨0, 0, 0, 255⟩, ⟨0, 0, 0, 255⟩, ⟨0, 0, 0, 255⟩, ⟨0, 0, 0, 255⟩]
      2 0 ⟨255, 0, 0, 255⟩ 24 0 ⟨0, 0, 0, 255⟩ =
      some [⟨255, 0, 0, 255⟩, ⟨255, 0, 0, 255⟩, ⟨255, 0, 0, 255⟩, ⟨255, 0, 0, 255⟩] :=
  ⟨by decide, by decide⟩

/-- C10 amended: a seed whose *flat* pixel index `y·width + x` falls
outside the pixel array (negative, or at least `width·height`) leaves
the buffer unchanged and the loop terminates after the single initial
pop: the target reads as `undefined`, every comparison against it is
false, and the span at the seed is empty.  (A seed that is out of
bounds coordinate-wise but whose flat index lands in range aliases
another pixel and can mutate the buffer — see the counterexample.) -/
theorem floodFill_oob_flat_noop (fuel w h : ℕ) (data : List Pixel)
    (x y : ℤ) (fillC : Pixel) (tol : ℤ) (gap : ℕ) (bg : Pixel)
    (hlen : data.length = w * h)
    (hoob : y * (w : ℤ) + x < 0 ∨ ((w * h : ℕ) : ℤ) ≤ y * (w : ℤ) + x)
    (hfuel : 1 ≤ fuel) :
    floodFill fuel w h data x y fillC tol gap bg = some data := by
  have htgt : pixGet data (y * (w : ℤ) + x) = none := by
    apply pixGet_oob
    rcases hoob with hv | hv
    · exact Or.inl hv
    · right
      omega
  rw [floodFill]
  simp only [htgt]
  rw [if_neg (by simp)]
  rw [if_neg (by
    rw [maskGet_oob]
    · simp
    · rcases hoob with hv | hv
      · exact Or.inl hv
      · right
        rw [carvedBarrier_length]
        exact hv)]
  obtain ⟨f, hfe⟩ : ∃ f, fuel = f + 1 := ⟨fuel - 1, by omega⟩
  subst hfe
  simp only [floodLoop]
  have hlx : spanLeft (fun t => closeEnough
      (carvedBarrier w h data none tol bg gap) none tol data (y * (w : ℤ) + t)) x
      = x + 1 := by
    by_cases hx : x < 0
    · unfold spanLeft
      rw [if_pos hx]
    · exact spanLeft_of_false _ x (by omega) (closeEnough_none _ _ _ _)
  rw [hlx, spanRight_of_false w (fun t => closeEnough
      (carvedBarrier w h data none tol bg gap) none tol data (y * (w : ℤ) + t)) x
      (closeEnough_none _ _ _ _)]
  rw [show (x - (x + 1)).toNat = 0 from by omega]
  simp [fillSpanNat, floodLoop]

/-- Witness for `floodFill_oob_flat_noop`: seed `(0, 5)` on a 1×1
buffer has flat index 5, outside the single-pixel array; the fill is a
no-op. -/
theorem floodFill_oob_flat_noop_witness :
    floodFill 1 1 1 [⟨0, 0, 0, 255⟩] 0 5 ⟨255, 0, 0, 255⟩ 24 0 ⟨255, 255, 255, 255⟩ =
      some [⟨0, 0, 0, 255⟩] :=
  floodFill_oob_flat_noop 1 1 1 [⟨0, 0, 0, 255⟩] 0 5 ⟨255, 0, 0, 255⟩ 24 0
    ⟨255, 255, 255, 255⟩ (by decide) (Or.inr (by decide)) (by decide)

/-! ### Lemmas about the segmentation loop -/

theorem noFF_tail {b : Bool} {rest : List Bool}
    (hff : noFF (b :: rest) = true) : noFF rest = true := by
  cases rest with
  | nil => rfl
  | cons c l =>
    unfold noFF at hff
    simp only [Bool.and_eq_true] at hff
    exact hff.2

theorem lastOk_cons_cons (b c : Bool) (l : List Bool) :
    lastOk (b :: c :: l) = lastOk (c :: l) := by
  simp [lastOk]

/-- Joint characterization of the segmentation loop under isolated
interior failures: with the `first` flag down, the loop counts one
moveTo per failure; with the flag up and a valid head sample, one more
for the initial segment. -/
theorem segmentStarts_count (outs : List Bool) :
    (noFF outs = true → lastOk outs = true →
      segmentStarts outs false = outs.count false) ∧
    (noFF outs = true → lastOk outs = true → outs.headD false = true →
      segmentStarts outs true = outs.count false + 1) := by
  induction outs with
  | nil =>
    refine ⟨fun _ _ => rfl, fun _ _ hh => ?_⟩
    simp at hh
  | cons b rest ih =>
    have hcount_t : (true :: rest).count false = rest.count false := by
      simp [List.count_cons]
    have hcount_f : (false :: rest).count false = rest.count false + 1 := by
      simp [List.count_cons]
    constructor
    · intro hff hlast
      cases b with
      | true =>
        have h1 : segmentStarts (true :: rest) false = segmentStarts rest false := by
          simp [segmentStarts]
        rw [h1, hcount_t]
        cases rest with
        | nil => rfl
        | cons c l =>
          exact ih.1 (noFF_tail hff) (by rwa [lastOk_cons_cons] at hlast)
      | false =>
        cases rest with
        | nil => simp [lastOk] at hlast
        | cons c l =>
          have hc : c = true := by
            unfold noFF at hff
            simp only [Bool.and_eq_true, Bool.or_eq_true] at hff
            simpa using hff.1
          subst hc
          have h1 : segmentStarts (false :: true :: l) false =
              segmentStarts (true :: l) true := by
            simp [segmentStarts]
          rw [h1, hcount_f]
          exact ih.2 (noFF_tail hff) (by rwa [lastOk_cons_cons] at hlast) rfl
    · intro hff hlast hh
      have hb : b = true := by simpa using hh
      subst hb
      have h1 : segmentStarts (true :: rest) true = 1 + segmentStarts rest false := by
        simp [segmentStarts]
      rw [h1, hcount_t]
      have h2 : segmentStarts rest false = rest.count false := by
        cases rest with
        | nil => rfl
        | cons c l =>
          exact ih.1 (noFF_tail hff) (by rwa [lastOk_cons_cons] at hlast)
      rw [h2]
      omega

/-! ### Claim C3: moveTo-starts versus evaluation failures -/

set_option maxRecDepth 4000 in
/-- C3 counterexample: a render of 301 samples (steps = 300, the fixed
minimum of the source, reached e.g. at width 0 with no rotation) whose
samples 1 and 2 fail consecutively produces 2 moveTo-starts, while the
claim's formula (failures + 1) gives 3: consecutive (or leading or
trailing) failures break the claimed equality. -/
theorem moveToStarts_cex :
    stepsFor 0 0 1 0 = 300 ∧
    (true :: false :: false :: List.replicate 298 true).length = 300 + 1 ∧
    moveToStarts (true :: false :: false :: List.replicate 298 true) = 2 ∧
    (true :: false :: false :: List.replicate 298 true).count false = 2 ∧
    moveToStarts (true :: false :: false :: List.replicate 298 true) ≠
      (true :: false :: false :: List.replicate 298 true).count false + 1 :=
  ⟨by norm_num [stepsFor, overscanPx, rotatedWidth], by decide, by decide,
    by decide, by decide⟩

/-- C3 amended: the number of moveTo-starts equals the number of failed
or non-finite samples plus one *provided* the first and last samples
are valid and no two consecutive samples fail (each failure is an
isolated interior sample); in general the count is the number of
maximal runs of valid samples, which consecutive or boundary failures
make smaller than failures + 1. -/
theorem moveToStarts_eq_failures_add_one (outs : List Bool)
    (hff : noFF outs = true) (hh : outs.headD false = true)
    (hl : lastOk outs = true) :
    moveToStarts outs = outs.count false + 1 :=
  (segmentStarts_count outs).2 hff hl hh

/-- Witness for `moveToStarts_eq_failures_add_one`: one isolated
interior failure yields two segments. -/
theorem moveToStarts_eq_failures_add_one_witness :
    moveToStarts [true, false, true] = [true, false, true].count false + 1 :=
  moveToStarts_eq_failures_add_one [true, false, true] (by decide) (by decide)
    (by decide)

/-! ### Claim C5: stroke width and opacity -/

/-- C5 counterexample: a supplied lineOpacity of 0 is falsy in the
source's `lineOpacity || 1`, so the default 1 is substituted before
clamping: the effective stroke opacity is 1, not the clamped 0 the
claim states. -/
theorem effectiveOpacity_zero_cex :
    effectiveOpacity 0 = 1 ∧ clampedOpacitySpec 0 = 0 ∧
    effectiveOpacity 0 ≠ clampedOpacitySpec 0 := by
  refine ⟨?_, ?_, ?_⟩ <;> norm_num [effectiveOpacity, clampedOpacitySpec]

/-- C5 amended: the polyline is stroked with an effective line width of
at least 0.5 px, and for every *nonzero* supplied lineOpacity the
effective opacity is the supplied value clamped to [0,1]; a supplied
lineOpacity of 0 (falsy) yields stroke opacity 1, not 0. -/
theorem stroke_style_clamped (o wd : ℚ) :
    (1 / 2 : ℚ) ≤ effectiveLineWidth wd ∧
    (o ≠ 0 → effectiveOpacity o = clampedOpacitySpec o) ∧
    effectiveOpacity 0 = 1 := by
  refine ⟨le_max_left _ _, fun ho => ?_, by norm_num [effectiveOpacity]⟩
  unfold effectiveOpacity clampedOpacitySpec
  rw [if_neg ho]

/-- Witness for `stroke_style_clamped` at opacity 1/2 and width 3. -/
theorem stroke_style_clamped_witness :
    ((1 / 2 : ℚ) ≤ effectiveLineWidth 3 ∧
      ((1 / 2 : ℚ) ≠ 0 → effectiveOpacity (1 / 2) = clampedOpacitySpec (1 / 2)) ∧
      effectiveOpacity 0 = 1) ∧
    effectiveOpacity (1 / 2) = clampedOpacitySpec (1 / 2) :=
  ⟨stroke_style_clamped (1 / 2) 3,
    (stroke_style_clamped (1 / 2) 3).2.1 (by norm_num)⟩

/-! ### Claim C6: pixel buffer dimensions after resize -/

/-- C6 counterexample: logical size 3 at device pixel ratio 3/2.  The
source computes `Math.floor(3 · 1.5) = 4`; the claimed
`ceil(3 · 1.5) = 5` differs. -/
theorem fitDim_cex :
    fitDim 3 (3 / 2) = 4 ∧ specBufDim 3 (3 / 2) = 5 ∧
    fitDim 3 (3 / 2) ≠ specBufDim 3 (3 / 2) := by
  have h1 : fitDim 3 (3 / 2) = 4 := by norm_num [fitDim, effDpr]
  have h2 : specBufDim 3 (3 / 2) = 5 := by
    norm_num [specBufDim, effDpr]
    rw [Int.ceil_eq_iff]
    constructor <;> norm_num
  exact ⟨h1, h2, by rw [h1, h2]; norm_num⟩

/-- C6 amended: after every resize, each pixel buffer dimension equals
`floor(logical · dpr)` (with `dpr = max(1, devicePixelRatio)`), i.e. it
is the unique integer `n` with `n ≤ logical·dpr < n + 1` — the source
floors where the claim states a ceiling. -/
theorem fitDim_floor_charac (css d : ℚ) :
    (fitDim css d : ℚ) ≤ css * effDpr d ∧ css * effDpr d < fitDim css d + 1 :=
  ⟨Int.floor_le (css * effDpr d), Int.lt_floor_add_one (css * effDpr d)⟩

/-! ### Claim C7: overscan geometry and sample mapping -/

/-- C7: the rasterizer computes the overscan margin and the pixel
mapping exactly as the spec's formulas state, and the mathematical
domain it samples is unchanged by the overscan: every sample abscissa
stays within `[xMin, xMax]`, while the domain edges map to the
endpoints `-overscan` and `width + overscan` of the extended pixel
range.  The trigonometric samples `cos θ`, `sin θ` are the inputs `c`,
`s`. -/
theorem overscan_mapping (w h c s xMin xMax y yMin yMax : ℚ) (i steps : ℕ)
    (hx : xMin < xMax) (hst : 0 < steps) (hi : i ≤ steps) :
    overscanPx w h c s = overscanSpec w h c s ∧
    (∀ xv : ℚ, pxCoord w h c s xMin xMax xv = pxCoordSpec w h c s xMin xMax xv) ∧
    pyCoord h yMin yMax y = pyCoordSpec h yMin yMax y ∧
    pxCoord w h c s xMin xMax xMin = -(overscanPx w h c s) ∧
    pxCoord w h c s xMin xMax xMax = w + overscanPx w h c s ∧
    xMin ≤ sampleX xMin xMax i steps ∧ sampleX xMin xMax i steps ≤ xMax := by
  have hne : xMax - xMin ≠ 0 := sub_ne_zero.mpr (ne_of_gt hx)
  have ht0 : (0 : ℚ) ≤ (i : ℚ) / (steps : ℚ) := by positivity
  have ht1 : (i : ℚ) / (steps : ℚ) ≤ 1 := by
    rw [div_le_one (by exact_mod_cast hst)]
    exact_mod_cast hi
  refine ⟨rfl, fun xv => rfl, rfl, ?_, ?_, ?_, ?_⟩
  · unfold pxCoord pxPerXExt
    rw [sub_self, zero_mul, zero_sub]
  · unfold pxCoord pxPerXExt
    field_simp
    ring
  · unfold sampleX
    nlinarith
  · unfold sampleX
    nlinarith

/-- Witness for `overscan_mapping`: the 200×100 surface of the spec's
scenario, tilted by 90° (`c = 0`, `s = 1`), domain `[-10,10]×[-5,5]`,
sample 3 of 300. -/
theorem overscan_mapping_witness :
    overscanPx 200 100 0 1 = overscanSpec 200 100 0 1 ∧
    (∀ xv : ℚ, pxCoord 200 100 0 1 (-10) 10 xv = pxCoordSpec 200 100 0 1 (-10) 10 xv) ∧
    pyCoord 100 (-5) 5 0 = pyCoordSpec 100 (-5) 5 0 ∧
    pxCoord 200 100 0 1 (-10) 10 (-10) = -(overscanPx 200 100 0 1) ∧
    pxCoord 200 100 0 1 (-10) 10 10 = 200 + overscanPx 200 100 0 1 ∧
    (-10 : ℚ) ≤ sampleX (-10) 10 3 300 ∧ sampleX (-10) 10 3 300 ≤ 10 :=
  overscan_mapping 200 100 0 1 (-10) 10 0 (-5) 5 3 300 (by norm_num)
    (by norm_num) (by norm_num)

end FxArt
